import Mathlib

/-!
Shallow embedding of the wfs-rs virtual filesystem (src/main.rs, src/fs/mod.rs,
src/fs/util.rs).

Modelling conventions:
- byte buffers are `List Nat`; machine integers (u8, u32, u64, usize) are `Nat`
  (none of the modelled arithmetic can overflow in the claims' ranges);
- the external crate `goldsrc_rs` parses wad entries; its results
  (`goldsrc_rs::pic`, `::miptex`, `::font`, `Entry::reader().read_to_end`) are
  modelled as data carried by each entry, since that crate is an external
  collaborator outside this repository;
- `pic2img` writes a TGA container through the external `image` crate; the
  container format is an external collaborator, so the encoded output is
  modelled as the RGBA buffer itself (the encoding is uncompressed and
  lossless).  `image::RgbaImage::from_vec` fails exactly when the buffer is
  smaller than `width * height * 4`;
- `tracing` log statements have no observable effect and are omitted;
- `rayon`'s `into_par_iter().for_each` over the entries of one archive is
  modelled sequentially in the list order of the entries;
- a Rust panic (`unimplemented!()`) aborts the build; it is modelled as the
  `none` result of `processEntry` / `append_entries`;
- `ttl_attr` is the constant `DEFAULT_ATTR_TTL` and never observable through
  the modelled operations, so it is omitted from the `WadFS` record;
- the FUSE reply objects are modelled by the `Reply` inductive; `ReplyDirectory`
  accumulates at most `cap` entries (the caller's buffer capacity): `reply.add`
  returns `true` (entry rejected, handler returns early) once `cap` entries
  are stored.
-/

namespace WfsRs

/-- libc::ENOENT, the errno used by the handlers for "not found". -/
def ENOENT : Nat := 2

/-- libc value of the I/O-error errno used by the handlers (EIO). -/
def eio : Nat := 5

/-- goldsrc_rs::texture::MIP_LEVELS. -/
def MIP_LEVELS : Nat := 4

/-- goldsrc_rs::texture::Rgb, a `[u8; 3]` palette entry `(r, g, b)`. -/
abbrev Rgb := Nat × Nat × Nat

/-- One RGBA pixel of `pic2img` (util.rs lines 37-45): the closure of the
`flat_map` over the index buffer.  `[0; 4]` when any channel is 255,
`[r, g, b, 255]` otherwise. -/
def pix2rgba (c : Rgb) : List Nat :=
  if c.1 = 255 ∨ c.2.1 = 255 ∨ c.2.2 = 255 then [0, 0, 0, 0]
  else [c.1, c.2.1, c.2.2, 255]

/-- The RGBA buffer `data` built by `pic2img` (util.rs lines 35-46):
`indices.iter().flat_map(|&i| ...).collect()`.  Out-of-range palette indices
cannot occur in the program (indices are u8, palettes have 256 entries), so the
Rust indexing `palette[rgb_i]` is modelled totally with `getD`. -/
def pic2imgData (indices : List Nat) (palette : List Rgb) : List Nat :=
  indices.flatMap fun i => pix2rgba (palette.getD i (0, 0, 0))

/-- util.rs `pic2img` (lines 28-67).  The result is the byte buffer written to
the output cursor, modelled as the raw RGBA buffer (TGA container elided, see
the file comment); `RgbaImage::from_vec` returns `None` — an `io::Result`
error, and an empty output buffer — when the buffer cannot hold
`width * height` RGBA pixels. -/
def pic2img (width height : Nat) (indices : List Nat) (palette : List Rgb) :
    Except Unit (List Nat) :=
  let data := pic2imgData indices palette
  if width * height * 4 ≤ data.length then Except.ok data else Except.error ()

/-- util.rs `mip_level_name`: `format!("mip_{}.{}", level, "tga")`. -/
def mip_level_name (level : Nat) : String :=
  "mip_" ++ toString level ++ "." ++ "tga"

/-- util.rs `pic_name`: `format!("{}.{}", name, "tga")`. -/
def pic_name (name : String) : String :=
  name ++ "." ++ "tga"

/-- fuser::FileType, restricted to the two variants the program produces. -/
inductive FileType where
  | regularFile
  | directory
deriving DecidableEq

/-- mod.rs `INode` (lines 25-32): name, optional parent handle, optional
decoded content. -/
structure INode where
  name : String
  parent : Option Nat
  data : Option (List Nat)
deriving DecidableEq

/-- `INode::default()`: empty name, no parent, no data. -/
def INode.dflt : INode := ⟨"", none, none⟩

/-- mod.rs `INode::file_type` (lines 35-40). -/
def INode.file_type (n : INode) : FileType :=
  match n.data with
  | some _ => FileType.regularFile
  | none => FileType.directory

/-- mod.rs `INode::size` (lines 42-44). -/
def INode.size (n : INode) : Nat :=
  (n.data.map List.length).getD 0

/-- fuser::FileAttr, restricted to the fields the program computes (all
timestamps are the constant `UNIX_EPOCH` and are omitted). -/
structure FileAttr where
  ino : Nat
  size : Nat
  blocks : Nat
  kind : FileType
  perm : Nat
  nlink : Nat
  uid : Nat
  gid : Nat
  rdev : Nat
  blksize : Nat
  flags : Nat
deriving DecidableEq

/-- mod.rs `INode::resolve_file_attr` (lines 46-64). -/
def INode.resolve_file_attr (n : INode) (ino : Nat) : FileAttr :=
  { ino := ino
    size := n.size
    blocks := 0
    kind := n.file_type
    perm := 0o755
    nlink := 1
    uid := 1000
    gid := 1000
    rdev := 0
    blksize := 0
    flags := 0 }

/-- mod.rs `INodes::empty` (lines 73-77): the table starts with one default
sentinel node at index 0. -/
def INodes.empty : List INode := [INode.dflt]

/-- mod.rs `INodes::push_inode` (lines 79-83): returns the length before the
push as the new handle, and the grown table. -/
def push_inode (inodes : List INode) (n : INode) : List INode × Nat :=
  (inodes ++ [n], inodes.length)

/-- mod.rs `WadFS` (lines 86-95), without the constant `ttl_attr`. -/
structure WadFS where
  inodes : List INode
  pics_ino : Nat
  miptexs_ino : Nat
  fonts_ino : Nat
  other_ino : Nat
deriving DecidableEq

/-- mod.rs `WadFS::new` (lines 97-130): root "." is pushed first, then the
four category directories `pics`, `miptexs`, `fonts`, `other` (Rust struct
literals evaluate their fields in textual order), all as children of root. -/
def WadFS.new : WadFS :=
  let r1 := push_inode INodes.empty ⟨".", none, none⟩
  let r2 := push_inode r1.1 ⟨"pics", some r1.2, none⟩
  let r3 := push_inode r2.1 ⟨"miptexs", some r1.2, none⟩
  let r4 := push_inode r3.1 ⟨"fonts", some r1.2, none⟩
  let r5 := push_inode r4.1 ⟨"other", some r1.2, none⟩
  { inodes := r5.1
    pics_ino := r2.2
    miptexs_ino := r3.2
    fonts_ino := r4.2
    other_ino := r5.2 }

/-- Parse result of `goldsrc_rs::pic` / `::font` as consumed by
`append_entries`: width, height, the level-0 index buffer `data.indices[0]`,
and the palette. -/
structure PicData where
  width : Nat
  height : Nat
  indices0 : List Nat
  palette : List Rgb
deriving DecidableEq

/-- The `data` payload of a parsed MipTexture: the four per-level index
buffers `data.indices[i]` and the shared palette. -/
structure MipData where
  indices : List (List Nat)
  palette : List Rgb
deriving DecidableEq

/-- Parse result of `goldsrc_rs::miptex`: base dimensions and an optional
data payload (`None` for an "empty miptex"). -/
structure MipTexRec where
  width : Nat
  height : Nat
  data : Option MipData
deriving DecidableEq

deriving instance DecidableEq for Except

/-- One wad entry together with the outcome of the external parser on it.
`unknown` stands for a `ContentType` tag outside the four matched kinds,
reaching the wildcard arm of `append_entries`.  For `other`, the `Except`
carries the buffer left by `read_to_end` in both outcomes (partial on error). -/
inductive EntryContent where
  | picture (res : Except String PicData)
  | mipTexture (res : Except String MipTexRec)
  | font (res : Except String PicData)
  | other (res : Except (List Nat) (List Nat))
  | unknown (tag : Nat)
deriving DecidableEq

/-- A named wad entry, as yielded by `goldsrc_rs::wad_entries`. -/
structure Entry where
  name : String
  content : EntryContent
deriving DecidableEq

/-- The cursor contents after the `pic2img` call for a Picture or Font entry
(mod.rs lines 154-161, 222-224): the encoded buffer on success, the untouched
empty buffer on failure (the failure is only logged). -/
def picBuf (p : PicData) : List Nat :=
  match pic2img p.width p.height p.indices0 p.palette with
  | Except.ok b => b
  | Except.error _ => []

/-- The cursor contents after the `pic2img` call for mip level `i` of a
MipTexture (mod.rs lines 191-200): dimensions are the base dimensions
right-shifted by the level. -/
def mipBuf (width height : Nat) (d : MipData) (i : Nat) : List Nat :=
  match pic2img (width >>> i) (height >>> i) (d.indices.getD i []) d.palette with
  | Except.ok b => b
  | Except.error _ => []

/-- The buffer pushed for an `Other` entry (mod.rs lines 237-247): whatever
`read_to_end` left in `buf`, also on error (the error is only logged). -/
def otherBuf (res : Except (List Nat) (List Nat)) : List Nat :=
  match res with
  | Except.ok b => b
  | Except.error b => b

/-- The loop `for i in 0..MIP_LEVELS` of mod.rs lines 190-207: one child
inode is pushed per level, with name `mip_<i>.tga`, parent `miptex_ino`, and
the (possibly empty) encoded buffer as content. -/
def pushMips (inodes : List INode) (miptex_ino width height : Nat)
    (d : MipData) : List INode :=
  (List.range MIP_LEVELS).foldl
    (fun acc i => acc ++ [⟨mip_level_name i, some miptex_ino, some (mipBuf width height d i)⟩])
    inodes

/-- One iteration of the `for_each` closure of `append_entries` (mod.rs lines
147-250), dispatching on the entry's content type.  `none` models the
`unimplemented!()` panic of the wildcard arm (process abort). -/
def processEntry (fs : WadFS) (e : Entry) : Option WadFS :=
  match e.content with
  | EntryContent.picture (Except.ok p) =>
      some { fs with inodes :=
        fs.inodes ++ [⟨pic_name e.name, some fs.pics_ino, some (picBuf p)⟩] }
  | EntryContent.picture (Except.error _) => some fs
  | EntryContent.mipTexture res =>
      let miptex_ino := fs.inodes.length
      let inodes1 := fs.inodes ++ [⟨e.name, some fs.miptexs_ino, none⟩]
      match res with
      | Except.ok m =>
          match m.data with
          | some d =>
              some { fs with inodes := pushMips inodes1 miptex_ino m.width m.height d }
          | none => some { fs with inodes := inodes1 }
      | Except.error _ => some { fs with inodes := inodes1 }
  | EntryContent.font (Except.ok p) =>
      some { fs with inodes :=
        fs.inodes ++ [⟨pic_name e.name, some fs.fonts_ino, some (picBuf p)⟩] }
  | EntryContent.font (Except.error _) => some fs
  | EntryContent.other res =>
      some { fs with inodes :=
        fs.inodes ++ [⟨e.name, some fs.other_ino, some (otherBuf res)⟩] }
  | EntryContent.unknown _ => none

/-- mod.rs `WadFS::append_entries` (lines 132-253) over one archive's parsed
entry list, sequentially in list order. -/
def append_entries (fs : WadFS) (entries : List Entry) : Option WadFS :=
  match entries with
  | [] => some fs
  | e :: rest =>
      match processEntry fs e with
      | some fs1 => append_entries fs1 rest
      | none => none

/-- One entry handed to `fuser::ReplyDirectory::add` by `readdir`: the child's
inode handle, the resume offset `i + 1`, its kind and its name. -/
structure DirEntry where
  ino : Nat
  off : Nat
  kind : FileType
  name : String
deriving DecidableEq

/-- A reply sent through one of the fuser reply objects. -/
inductive Reply where
  | entry (ino : Nat) (a : FileAttr)
  | attr (a : FileAttr)
  | dir (es : List DirEntry)
  | bytes (d : List Nat)
  | error (errno : Nat)
deriving DecidableEq

/-- The filtered enumeration `iter().enumerate().filter(|(_, inode)|
inode.parent == Some(dir))` shared by `lookup` and `readdir`: all children of
`dir` with their handles, in creation order. -/
def childrenOf (inodes : List INode) (dir : Nat) : List (Nat × INode) :=
  inodes.enum.filter fun p => p.2.parent == some dir

/-- mod.rs `lookup` (lines 257-271): linear scan of the whole table,
`find` on parent and name; `ENOENT` when absent. -/
def WadFS.lookup (fs : WadFS) (parent : Nat) (name : String) : Reply :=
  match fs.inodes.enum.find? (fun p => p.2.parent == some parent && p.2.name == name) with
  | some (ino, inode) => Reply.entry ino (inode.resolve_file_attr ino)
  | none => Reply.error ENOENT

/-- mod.rs `readdir` (lines 273-299): children are enumerated (position `i`
counted over all children), then `skip(offset)` and `take(5)`; each surviving
child is handed to `reply.add` with resume offset `i + 1` until the caller's
buffer (capacity `cap`) is full. -/
def WadFS.readdir (fs : WadFS) (ino offset cap : Nat) : Reply :=
  Reply.dir
    ((((childrenOf fs.inodes ino).enum.drop offset).take 5).map
      (fun q => ⟨q.2.1, q.1 + 1, q.2.2.file_type, q.2.2.name⟩)
      |>.take cap)

/-- mod.rs `getattr` (lines 301-307): bounds-checked `get`, `ENOENT` when out
of range. -/
def WadFS.getattr (fs : WadFS) (ino : Nat) : Reply :=
  match fs.inodes[ino]? with
  | some inode => Reply.attr (inode.resolve_file_attr ino)
  | none => Reply.error ENOENT

/-- mod.rs `read` (lines 309-334): `ENOENT` for an absent handle, an
I/O-error reply for a node without content, `data.get(start..end)` for the
strict exact range, an I/O-error reply when the range exceeds the content. -/
def WadFS.read (fs : WadFS) (ino offset size : Nat) : Reply :=
  match fs.inodes[ino]? with
  | some inode =>
      match inode.data with
      | some d =>
          if offset + size ≤ d.length then Reply.bytes ((d.drop offset).take size)
          else Reply.error eio
      | none => Reply.error eio
  | none => Reply.error ENOENT

/-- A serve-phase protocol request (the four `Filesystem` methods the program
implements). -/
inductive Request where
  | lookup (parent : Nat) (name : String)
  | readdir (ino offset cap : Nat)
  | getattr (ino : Nat)
  | read (ino offset size : Nat)
deriving DecidableEq

/-- The dispatch of one serve-phase request.  Each fuser handler takes
`&mut self` but only ever acquires the read lock on the table, so the state
it leaves behind is the state it was given; the returned `WadFS` is the
post-request state. -/
def WadFS.serve (fs : WadFS) (r : Request) : Reply × WadFS :=
  match r with
  | Request.lookup parent name => (fs.lookup parent name, fs)
  | Request.readdir ino offset cap => (fs.readdir ino offset cap, fs)
  | Request.getattr ino => (fs.getattr ino, fs)
  | Request.read ino offset size => (fs.read ino offset size, fs)

/-- Spec-side definition, written from the spec's words for the refinement
claim about `lookup`: the earliest-created child of `parent` whose name
matches, i.e. the first name match among `childrenOf` in creation order. -/
def firstMatchingChild (inodes : List INode) (parent : Nat) (name : String) :
    Option (Nat × INode) :=
  (childrenOf inodes parent).find? fun p => p.2.name == name

/-- Test fixture: an archive with six `Other` records, giving the `other`
directory six children. -/
def entries6 : List Entry :=
  (List.range 6).map fun i => ⟨"f" ++ toString i, EntryContent.other (Except.ok [])⟩

/-- Test fixture: a table with one regular file (3 content bytes) under
`other`. -/
def sampleFS : WadFS :=
  { WadFS.new with inodes := WadFS.new.inodes ++ [⟨"README", some 5, some [10, 20, 30]⟩] }

/-- Test fixture: a parsed Picture whose index buffer is too small for its
dimensions, so `pic2img` fails with the buffer/geometry error. -/
def pBad : PicData := ⟨1, 1, [], []⟩

/-- Test fixture: mip data with four index buffers and a one-entry palette. -/
def dW : MipData := ⟨[[0], [0], [0], [0]], [(1, 2, 3)]⟩

/-- Test fixture: a 1-by-1 parsed MipTexture with payload `dW`. -/
def mW : MipTexRec := ⟨1, 1, some dW⟩

/-- Every pixel emitted by the flat-map closure is four bytes. -/
theorem pix2rgba_length (c : Rgb) : (pix2rgba c).length = 4 := by
  unfold pix2rgba
  split <;> rfl

/-- The RGBA buffer unfolds one pixel at a time. -/
theorem pic2imgData_cons (a : Nat) (t : List Nat) (palette : List Rgb) :
    pic2imgData (a :: t) palette =
      pix2rgba (palette.getD a (0, 0, 0)) ++ pic2imgData t palette := rfl

/-- Pixel `i` of the RGBA buffer is the four bytes produced for palette entry
`indices.getD i 0`. -/
theorem pic2imgData_pixel (palette : List Rgb) :
    ∀ (indices : List Nat) (i : Nat), i < indices.length →
      ((pic2imgData indices palette).drop (4 * i)).take 4 =
        pix2rgba (palette.getD (indices.getD i 0) (0, 0, 0)) := by
  intro indices
  induction indices with
  | nil => intro i h; simp at h
  | cons a t ih =>
    intro i h
    cases i with
    | zero =>
      rw [pic2imgData_cons, Nat.mul_zero, List.drop_zero,
        show (4 : Nat) = (pix2rgba (palette.getD a (0, 0, 0))).length from
          (pix2rgba_length _).symm]
      exact List.take_left _ _
    | succ n =>
      rw [pic2imgData_cons,
        show 4 * (n + 1) = (pix2rgba (palette.getD a (0, 0, 0))).length + 4 * n by
          rw [pix2rgba_length]; ring,
        List.drop_append]
      simpa using ih n (by simpa using Nat.lt_of_succ_lt_succ h)

/-- Searching a filtered list is searching the original list with the
conjunction of the two predicates. -/
theorem filter_find?_eq {α : Type} (l : List α) (p q : α → Bool) :
    (l.filter p).find? q = l.find? fun a => p a && q a := by
  induction l with
  | nil => rfl
  | cons a t ih =>
    by_cases hp : p a
    · by_cases hq : q a <;> simp [List.filter_cons, List.find?_cons, hp, hq, ih]
    · simp [List.filter_cons, List.find?_cons, hp, ih]

/-- A fold that appends one element per iteration appends the mapped list. -/
theorem foldl_push_map {α β : Type} (g : α → β) :
    ∀ (xs : List α) (l : List β),
      xs.foldl (fun acc i => acc ++ [g i]) l = l ++ xs.map g := by
  intro xs
  induction xs with
  | nil => intro l; simp
  | cons a t ih => intro l; simp [List.foldl_cons, ih]

/-- The mip loop pushes exactly the four level inodes, in level order. -/
theorem pushMips_eq (l : List INode) (ino width height : Nat) (d : MipData) :
    pushMips l ino width height d =
      l ++ (List.range MIP_LEVELS).map
        (fun i => ⟨mip_level_name i, some ino, some (mipBuf width height d i)⟩) := by
  unfold pushMips
  exact foldl_push_map _ _ _

/-- A successful `processEntry` only appends inodes and never changes the
category-directory handles. -/
theorem processEntry_appends (fs fs1 : WadFS) (e : Entry)
    (h : processEntry fs e = some fs1) :
    (∃ s, fs1.inodes = fs.inodes ++ s) ∧ fs1.pics_ino = fs.pics_ino ∧
      fs1.miptexs_ino = fs.miptexs_ino ∧ fs1.fonts_ino = fs.fonts_ino ∧
      fs1.other_ino = fs.other_ino := by
  cases e with
  | mk nm c =>
    cases c with
    | picture res =>
      cases res with
      | ok p =>
        injection h with h
        subst h
        exact ⟨⟨_, rfl⟩, rfl, rfl, rfl, rfl⟩
      | error m =>
        injection h with h
        subst h
        exact ⟨⟨[], by simp⟩, rfl, rfl, rfl, rfl⟩
    | mipTexture res =>
      cases res with
      | ok m =>
        cases hd : m.data with
        | some d =>
          unfold processEntry at h
          dsimp only at h
          rw [hd] at h
          injection h with h
          subst h
          exact ⟨⟨_, by rw [pushMips_eq, List.append_assoc]⟩, rfl, rfl, rfl, rfl⟩
        | none =>
          unfold processEntry at h
          dsimp only at h
          rw [hd] at h
          injection h with h
          subst h
          exact ⟨⟨_, rfl⟩, rfl, rfl, rfl, rfl⟩
      | error m =>
        injection h with h
        subst h
        exact ⟨⟨_, rfl⟩, rfl, rfl, rfl, rfl⟩
    | font res =>
      cases res with
      | ok p =>
        injection h with h
        subst h
        exact ⟨⟨_, rfl⟩, rfl, rfl, rfl, rfl⟩
      | error m =>
        injection h with h
        subst h
        exact ⟨⟨[], by simp⟩, rfl, rfl, rfl, rfl⟩
    | other res =>
      injection h with h
      subst h
      exact ⟨⟨_, rfl⟩, rfl, rfl, rfl, rfl⟩
    | unknown t => cases h

/-- A successful build run only appends inodes and never changes the
category-directory handles. -/
theorem append_entries_appends :
    ∀ (entries : List Entry) (fs fs1 : WadFS),
      append_entries fs entries = some fs1 →
      (∃ s, fs1.inodes = fs.inodes ++ s) ∧ fs1.pics_ino = fs.pics_ino ∧
        fs1.miptexs_ino = fs.miptexs_ino ∧ fs1.fonts_ino = fs.fonts_ino ∧
        fs1.other_ino = fs.other_ino := by
  intro entries
  induction entries with
  | nil =>
    intro fs fs1 h
    injection h with h
    subst h
    exact ⟨⟨[], by simp⟩, rfl, rfl, rfl, rfl⟩
  | cons e rest ih =>
    intro fs fs1 h
    unfold append_entries at h
    cases hp : processEntry fs e with
    | none => rw [hp] at h; cases h
    | some fs2 =>
      rw [hp] at h
      obtain ⟨⟨s1, hs1⟩, h1, h2, h3, h4⟩ := processEntry_appends fs fs2 e hp
      obtain ⟨⟨s2, hs2⟩, g1, g2, g3, g4⟩ := ih fs2 fs1 h
      exact ⟨⟨s1 ++ s2, by rw [hs2, hs1, List.append_assoc]⟩,
        g1.trans h1, g2.trans h2, g3.trans h3, g4.trans h4⟩

/-- A search that succeeds on the table's prefix is unaffected by appended
inodes. -/
theorem find?_enum_append (base s : List INode) (p : Nat × INode → Bool)
    (x : Nat × INode) (h : base.enum.find? p = some x) :
    (base ++ s).enum.find? p = some x := by
  rw [List.enum_append, List.find?_append, h]
  rfl

/-- C1, counterexample: the claim says only a palette entry exactly
`(255,255,255)` decodes to the transparent pixel, yet `pic2img` maps the
entry `(255,0,0)` — not pure white — to `(0,0,0,0)` as well, because the
source tests `r == 255 || g == 255 || b == 255`. -/
theorem C1_counterexample :
    pic2imgData [0] [(255, 0, 0)] = [0, 0, 0, 0] ∧
      ((255, 0, 0) : Rgb) ≠ (255, 255, 255) := by
  decide

/-- C1, amended: a pixel decodes to fully transparent `(0,0,0,0)` if and only
if at least one channel of its palette entry equals 255; when no channel is
255 the pixel is emitted fully opaque as `(r,g,b,255)`. -/
theorem C1_transparency_any_channel (indices : List Nat) (palette : List Rgb)
    (i : Nat) (c : Rgb) (h : i < indices.length)
    (hc : palette.getD (indices.getD i 0) (0, 0, 0) = c) :
    (((pic2imgData indices palette).drop (4 * i)).take 4 = [0, 0, 0, 0] ↔
      (c.1 = 255 ∨ c.2.1 = 255 ∨ c.2.2 = 255)) ∧
    (c.1 ≠ 255 → c.2.1 ≠ 255 → c.2.2 ≠ 255 →
      ((pic2imgData indices palette).drop (4 * i)).take 4 =
        [c.1, c.2.1, c.2.2, 255]) := by
  have hp := pic2imgData_pixel palette indices i h
  rw [hc] at hp
  rw [hp]
  unfold pix2rgba
  by_cases h1 : c.1 = 255 ∨ c.2.1 = 255 ∨ c.2.2 = 255
  · rw [if_pos h1]
    exact ⟨⟨fun _ => h1, fun _ => rfl⟩, fun ha hb hcc => absurd h1 (by tauto)⟩
  · rw [if_neg h1]
    refine ⟨⟨fun he => ?_, fun hh => absurd hh h1⟩, fun _ _ _ => rfl⟩
    simp at he

/-- Witness for C1: a pixel whose palette entry `(1,2,3)` has no 255 channel
is emitted opaque. -/
theorem C1_witness :
    ((pic2imgData [0] [(1, 2, 3)]).drop (4 * 0)).take 4 = [1, 2, 3, 255] :=
  (C1_transparency_any_channel [0] [(1, 2, 3)] 0 (1, 2, 3) (by decide) rfl).2
    (by decide) (by decide) (by decide)

/-- C2, counterexample: with zero Picture records ingested (a fresh table),
`lookup(root, "pics")` succeeds instead of failing with `NotFound`, because
`WadFS::new` creates all four category directories eagerly. -/
theorem C2_counterexample :
    WadFS.new.lookup 1 "pics" ≠ Reply.error ENOENT := by decide

/-- C2, amended: the four category directories are created eagerly by
`WadFS::new` and exist in the tree regardless of which record types were
ingested; in particular `lookup(root, "pics")` succeeds (returning handle 2)
after every successful ingestion run, including one that ingested zero
Picture records. -/
theorem C2_category_dirs_always_exist (entries : List Entry) (fs1 : WadFS)
    (h : append_entries WadFS.new entries = some fs1) :
    fs1.lookup 1 "pics" =
      Reply.entry 2 ((INode.mk "pics" (some 1) none).resolve_file_attr 2) ∧
    fs1.lookup 1 "miptexs" =
      Reply.entry 3 ((INode.mk "miptexs" (some 1) none).resolve_file_attr 3) ∧
    fs1.lookup 1 "fonts" =
      Reply.entry 4 ((INode.mk "fonts" (some 1) none).resolve_file_attr 4) ∧
    fs1.lookup 1 "other" =
      Reply.entry 5 ((INode.mk "other" (some 1) none).resolve_file_attr 5) := by
  obtain ⟨⟨s, hs⟩, _, _, _, _⟩ := append_entries_appends entries WadFS.new fs1 h
  refine ⟨?_, ?_, ?_, ?_⟩
  · unfold WadFS.lookup
    rw [hs, find?_enum_append _ s _ (2, ⟨"pics", some 1, none⟩) (by decide)]
  · unfold WadFS.lookup
    rw [hs, find?_enum_append _ s _ (3, ⟨"miptexs", some 1, none⟩) (by decide)]
  · unfold WadFS.lookup
    rw [hs, find?_enum_append _ s _ (4, ⟨"fonts", some 1, none⟩) (by decide)]
  · unfold WadFS.lookup
    rw [hs, find?_enum_append _ s _ (5, ⟨"other", some 1, none⟩) (by decide)]

/-- Witness for C2: the empty ingestion run (zero records of every type)
still resolves all four category directories. -/
theorem C2_witness :
    WadFS.new.lookup 1 "pics" =
      Reply.entry 2 ((INode.mk "pics" (some 1) none).resolve_file_attr 2) :=
  (C2_category_dirs_always_exist [] WadFS.new rfl).1

/-- C3: a record whose content-type tag is none of the four known kinds hits
the wildcard arm `_ => unimplemented!()` of `append_entries`, which panics —
a process abort, modelled by `none` — instead of failing distinctly with
`UnsupportedContentType` for that record. -/
theorem C3_unknown_tag_aborts :
    append_entries WadFS.new [⟨"X", EntryContent.unknown 99⟩] = none := by decide

/-- C4, counterexample: a Picture record whose parse fails (corrupt record)
leaves the table exactly as it was — no file inode exists for it at all and
the `pics` directory stays childless — contradicting the claim that the
inode still exists with empty content. -/
theorem C4_counterexample :
    append_entries WadFS.new
        [⟨"bad", EntryContent.picture (Except.error "corrupt")⟩] =
      some WadFS.new ∧
    childrenOf WadFS.new.inodes 2 = [] := by decide

/-- C4, amended: when the pixel-encode step fails for a successfully parsed
Picture record, the failure is only logged, the file inode is still created
with an empty buffer, and its attributes report zero length; but when the
record's parse itself fails, no file inode is created at all. -/
theorem C4_decode_failure_empty (fs : WadFS) (name msg : String) (p : PicData)
    (henc : pic2img p.width p.height p.indices0 p.palette = Except.error ()) :
    processEntry fs ⟨name, EntryContent.picture (Except.ok p)⟩ =
      some { fs with inodes :=
        fs.inodes ++ [⟨pic_name name, some fs.pics_ino, some []⟩] } ∧
    (INode.mk (pic_name name) (some fs.pics_ino) (some [])).size = 0 ∧
    ({ fs with inodes :=
        fs.inodes ++ [⟨pic_name name, some fs.pics_ino, some []⟩] } : WadFS).getattr
        fs.inodes.length =
      Reply.attr ((INode.mk (pic_name name) (some fs.pics_ino)
        (some [])).resolve_file_attr fs.inodes.length) ∧
    processEntry fs ⟨name, EntryContent.picture (Except.error msg)⟩ = some fs := by
  have hb : picBuf p = [] := by
    unfold picBuf
    rw [henc]
  refine ⟨?_, rfl, ?_, rfl⟩
  · unfold processEntry
    dsimp only
    rw [hb]
  · unfold WadFS.getattr
    rw [List.getElem?_concat_length]

/-- Witness for C4: a 1-by-1 Picture with an empty index buffer fails the
encode and is ingested as an empty file. -/
theorem C4_witness :
    processEntry WadFS.new ⟨"crash", EntryContent.picture (Except.ok pBad)⟩ =
      some { WadFS.new with inodes :=
        WadFS.new.inodes ++ [⟨pic_name "crash", some WadFS.new.pics_ino, some []⟩] } :=
  (C4_decode_failure_empty WadFS.new "crash" "m" pBad (by decide)).1

/-- C5: the strict exact-range read contract — `NotFound` for a handle
outside the table, an I/O error for a node with no content (a directory) and
for a range that exceeds the content's length, and otherwise exactly the
requested `offset..offset+size` bytes, never a short read. -/
theorem C5_read_exact_range (fs : WadFS) (ino offset size : Nat) :
    (fs.inodes[ino]? = none → fs.read ino offset size = Reply.error ENOENT) ∧
    (∀ n, fs.inodes[ino]? = some n → n.data = none →
      fs.read ino offset size = Reply.error eio) ∧
    (∀ n d, fs.inodes[ino]? = some n → n.data = some d →
      offset + size ≤ d.length →
      fs.read ino offset size = Reply.bytes ((d.drop offset).take size) ∧
        ((d.drop offset).take size).length = size) ∧
    (∀ n d, fs.inodes[ino]? = some n → n.data = some d →
      d.length < offset + size → fs.read ino offset size = Reply.error eio) := by
  refine ⟨?_, ?_, ?_, ?_⟩
  · intro h
    unfold WadFS.read
    rw [h]
  · intro n h hd
    simp only [WadFS.read, h, hd]
  · intro n d h hd hle
    constructor
    · simp only [WadFS.read, h, hd]
      rw [if_pos hle]
    · rw [List.length_take, List.length_drop]
      omega
  · intro n d h hd hlt
    simp only [WadFS.read, h, hd]
    rw [if_neg (by omega)]

/-- Witness for C5: on a table with one 3-byte file (handle 6), an interior
range is returned exactly, a directory read and an overlong range give the
I/O error, and handle 99 is not found. -/
theorem C5_witness :
    sampleFS.read 6 1 2 = Reply.bytes [20, 30] ∧
    sampleFS.read 99 0 1 = Reply.error ENOENT ∧
    sampleFS.read 3 0 1 = Reply.error eio ∧
    sampleFS.read 6 0 4 = Reply.error eio :=
  ⟨((C5_read_exact_range sampleFS 6 1 2).2.2.1
      (INode.mk "README" (some 5) (some [10, 20, 30])) [10, 20, 30]
      (by decide) rfl (by decide)).1.trans (by decide),
   (C5_read_exact_range sampleFS 99 0 1).1 (by decide),
   (C5_read_exact_range sampleFS 3 0 1).2.1
      (INode.mk "miptexs" (some 1) none) (by decide) rfl,
   (C5_read_exact_range sampleFS 6 0 4).2.2.2
      (INode.mk "README" (some 5) (some [10, 20, 30])) [10, 20, 30]
      (by decide) rfl (by decide)⟩

/-- C6: the claim says `list` stops only when the caller's buffer is full,
but `readdir` caps every call at 5 entries (`take(5)`): with 6 children under
the `other` directory and a caller buffer of capacity 10 — not full — a
single call returns only 5 entries. -/
theorem C6_readdir_fixed_cap :
    (append_entries WadFS.new entries6).map
      (fun fs =>
        ((match fs.readdir 5 0 10 with
          | Reply.dir es => es.length
          | _ => 0),
         (childrenOf fs.inodes 5).length)) = some (5, 6) := by decide

/-- C7, counterexample: a MipTexture record whose payload is empty
(`data == None`) is ingested as a directory inode with zero children, not
with the claimed exactly-4 `mip_k.tga` children. -/
theorem C7_counterexample :
    (append_entries WadFS.new
        [⟨"WALL", EntryContent.mipTexture (Except.ok ⟨256, 256, none⟩)⟩]).map
      (fun fs => (fs.inodes.length, (childrenOf fs.inodes 6).length)) =
      some (7, 0) := by decide

/-- C7, amended: a MipTexture record whose parse succeeds with a present
payload yields a directory inode plus exactly `MIP_LEVELS` (4) child file
inodes, in level order, named `mip_0.tga` through `mip_3.tga`, and level `i`
is decoded by `pic2img` at the base dimensions right-shifted by `i`; a record
whose payload is absent (or whose parse fails) yields a childless directory. -/
theorem C7_miptex_children (fs : WadFS) (name : String) (m : MipTexRec)
    (d : MipData) (h : m.data = some d) :
    processEntry fs ⟨name, EntryContent.mipTexture (Except.ok m)⟩ =
      some { fs with inodes := fs.inodes ++
        (⟨name, some fs.miptexs_ino, none⟩ ::
         [⟨mip_level_name 0, some fs.inodes.length, some (mipBuf m.width m.height d 0)⟩,
          ⟨mip_level_name 1, some fs.inodes.length, some (mipBuf m.width m.height d 1)⟩,
          ⟨mip_level_name 2, some fs.inodes.length, some (mipBuf m.width m.height d 2)⟩,
          ⟨mip_level_name 3, some fs.inodes.length, some (mipBuf m.width m.height d 3)⟩]) } ∧
    [mip_level_name 0, mip_level_name 1, mip_level_name 2, mip_level_name 3] =
      ["mip_0.tga", "mip_1.tga", "mip_2.tga", "mip_3.tga"] ∧
    (∀ i b,
      pic2img (m.width >>> i) (m.height >>> i) (d.indices.getD i []) d.palette =
        Except.ok b → mipBuf m.width m.height d i = b) := by
  refine ⟨?_, by decide, ?_⟩
  · unfold processEntry
    dsimp only
    rw [h]
    dsimp only
    rw [pushMips_eq,
      show List.range MIP_LEVELS = [0, 1, 2, 3] from by decide]
    simp [List.append_assoc]
  · intro i b hb
    unfold mipBuf
    rw [hb]

/-- Witness for C7: a concrete 1-by-1 MipTexture yields a directory at
handle 6 whose four children are `mip_0.tga` through `mip_3.tga`. -/
theorem C7_witness :
    (processEntry WadFS.new ⟨"W", EntryContent.mipTexture (Except.ok mW)⟩).map
      (fun fs => (fs.inodes.length,
        (childrenOf fs.inodes 6).map (fun q => q.2.name))) =
      some (11, ["mip_0.tga", "mip_1.tga", "mip_2.tga", "mip_3.tga"]) := by
  rw [(C7_miptex_children WadFS.new "W" mW dW rfl).1]
  decide

/-- C8, counterexample: `getattr(0)` does not yield "not found": index 0
holds the reserved default sentinel node, the bounds-checked `get` returns
it, and the handler replies with the sentinel's placeholder directory
attributes. -/
theorem C8_counterexample :
    WadFS.new.getattr 0 ≠ Reply.error ENOENT ∧
    WadFS.new.getattr 0 = Reply.attr (INode.dflt.resolve_file_attr 0) := by
  decide

/-- C8, amended: `push_inode` never returns handle 0 (the table always holds
the sentinel, so the returned pre-push length is at least 1), the first real
inode — the root — receives handle 1, and `getattr` on an out-of-range handle
yields `ENOENT`; but handle 0 itself is not rejected: `getattr(0)` succeeds
with the sentinel's placeholder directory attributes. -/
theorem C8_handle0_sentinel (l : List INode) (x : INode) (fs : WadFS)
    (ino : Nat) (hl : l ≠ []) (hino : fs.inodes.length ≤ ino) :
    1 ≤ (push_inode l x).2 ∧
    (push_inode INodes.empty ⟨".", none, none⟩).2 = 1 ∧
    WadFS.new.inodes[1]? = some ⟨".", none, none⟩ ∧
    fs.getattr ino = Reply.error ENOENT ∧
    WadFS.new.getattr 0 = Reply.attr (INode.dflt.resolve_file_attr 0) := by
  refine ⟨?_, by decide, by decide, ?_, by decide⟩
  · show 1 ≤ l.length
    cases l with
    | nil => exact absurd rfl hl
    | cons a t => simp
  · unfold WadFS.getattr
    rw [List.getElem?_eq_none hino]

/-- Witness for C8: the initial one-element table allocates handle 1 next,
and handle 77 is out of range for the fresh filesystem. -/
theorem C8_witness :
    1 ≤ (push_inode [INode.dflt] INode.dflt).2 ∧
    WadFS.new.getattr 77 = Reply.error ENOENT := by
  have h := C8_handle0_sentinel [INode.dflt] INode.dflt WadFS.new 77
    (by decide) (by decide)
  exact ⟨h.1, h.2.2.2.1⟩

/-- C9: `lookup` returns the earliest-created child of the parent whose name
matches — the first name match, in creation order, among that parent's
children (also when several children share the name) — and `ENOENT` when no
child of the parent has the name. -/
theorem C9_lookup_first_match (fs : WadFS) (parent : Nat) (name : String) :
    fs.lookup parent name =
      match firstMatchingChild fs.inodes parent name with
      | some (i, n) => Reply.entry i (n.resolve_file_attr i)
      | none => Reply.error ENOENT := by
  unfold WadFS.lookup firstMatchingChild childrenOf
  rw [filter_find?_eq]

/-- C10: every serve-phase request leaves the inode table completely
unchanged (the handlers only ever take the read lock; all decoding happened
inside `append_entries` at build time), and repeating the same request
returns the identical reply. -/
theorem C10_serve_frame (fs : WadFS) (r : Request) :
    (fs.serve r).2 = fs ∧
    (fs.serve r).2.inodes = fs.inodes ∧
    ((fs.serve r).2.serve r).1 = (fs.serve r).1 := by
  cases r <;> exact ⟨rfl, rfl, rfl⟩

end WfsRs
